import Mathlib

/-!
Verification of the NewsHub Pages Digest pipeline (news_hub/scripts/build_site.py).

The Python functions of the pipeline are embedded shallowly: dictionaries that
always carry the same keys become structures, Python strings become Lean
strings (lists of characters; Python slicing and length count characters, as
does Lean on the char level), Python integers become Int, sets used only for
membership become lists, and functions that can raise exceptions return
Except.  External libraries (dateutil parsing, the network) are passed in as
explicit parameters.
-/

/-- Canonical news record, as constructed by build_site.main for both the rss
and the edinet branches.  Every constructed dictionary carries all of these
keys, so the .get defaults of the Python code never fire on constructed
items; importance and published_ts are integers in every constructed item. -/
structure Item where
  id : String
  topic_pack : String
  source : String
  title : String
  url : String
  published_at : String
  published_ts : Int
  summary_short : String
  tags : List String
  importance : Int
  impact : String
  llm_mode : String
  llm_draft : Bool
  llm_confidence : String
  deriving DecidableEq, Repr

/-- Loop of dedupe_by_url with the accumulated seen set (a Python set of url
strings, modelled as a list queried by membership). -/
def dedupeAux (seen : List String) : List Item → List Item
  | [] => []
  | it :: rest =>
    if it.url = "" then dedupeAux seen rest
    else if it.url ∈ seen then dedupeAux seen rest
    else it :: dedupeAux (it.url :: seen) rest

/-- Embedding of dedupe_by_url: drop items with empty url, keep the first
occurrence per url, preserving order. -/
def dedupe_by_url (items : List Item) : List Item :=
  dedupeAux [] items

/-- Specification-side description of deduplication, written after the words
of the claim: walking the list with the set of urls of all earlier items, an
item is kept exactly when its url is non-empty and no earlier item had the
same url. -/
def dedupeFirstSeen (seenUrls : List String) : List Item → List Item
  | [] => []
  | it :: rest =>
    if it.url ≠ "" ∧ it.url ∉ seenUrls then
      it :: dedupeFirstSeen (it.url :: seenUrls) rest
    else
      dedupeFirstSeen (it.url :: seenUrls) rest

theorem dedupeAux_eq_firstSeen :
    ∀ (items : List Item) (seen seenUrls : List String),
      (∀ u : String, u ≠ "" → (u ∈ seen ↔ u ∈ seenUrls)) →
      dedupeAux seen items = dedupeFirstSeen seenUrls items := by
  intro items
  induction items with
  | nil => intro seen seenUrls _; rfl
  | cons it rest ih =>
    intro seen seenUrls hinv
    by_cases hu : it.url = ""
    · rw [dedupeAux, dedupeFirstSeen, if_pos hu]
      have hcond : ¬(it.url ≠ "" ∧ it.url ∉ seenUrls) := by
        intro hc; exact hc.1 hu
      rw [if_neg hcond]
      apply ih
      intro u hne
      rw [hinv u hne, List.mem_cons]
      constructor
      · intro h; exact Or.inr h
      · intro h
        rcases h with h | h
        · exact absurd (h.trans hu) hne
        · exact h
    · by_cases hs : it.url ∈ seen
      · rw [dedupeAux, if_neg hu, if_pos hs, dedupeFirstSeen]
        have hmem : it.url ∈ seenUrls := (hinv it.url hu).mp hs
        have hcond : ¬(it.url ≠ "" ∧ it.url ∉ seenUrls) := by
          intro hc; exact hc.2 hmem
        rw [if_neg hcond]
        apply ih
        intro u hne
        rw [hinv u hne, List.mem_cons]
        constructor
        · intro h; exact Or.inr h
        · intro h
          rcases h with h | h
          · rw [h]; exact hmem
          · exact h
      · rw [dedupeAux, if_neg hu, if_neg hs, dedupeFirstSeen]
        have hmem : it.url ∉ seenUrls := fun h => hs ((hinv it.url hu).mpr h)
        rw [if_pos ⟨hu, hmem⟩]
        congr 1
        apply ih
        intro u hne
        simp only [List.mem_cons]
        rw [hinv u hne]

theorem dedupeAux_nodup_props :
    ∀ (items : List Item) (seen : List String),
      ((dedupeAux seen items).map Item.url).Nodup ∧
      ∀ it ∈ dedupeAux seen items, it.url ≠ "" ∧ it.url ∉ seen := by
  intro items
  induction items with
  | nil => intro seen; exact ⟨List.nodup_nil, by intro it h; cases h⟩
  | cons x rest ih =>
    intro seen
    by_cases hu : x.url = ""
    · rw [dedupeAux, if_pos hu]; exact ih seen
    · by_cases hs : x.url ∈ seen
      · rw [dedupeAux, if_neg hu, if_pos hs]; exact ih seen
      · rw [dedupeAux, if_neg hu, if_neg hs]
        obtain ⟨hnd, hprops⟩ := ih (x.url :: seen)
        constructor
        · rw [List.map_cons, List.nodup_cons]
          refine ⟨?_, hnd⟩
          intro hmem
          rw [List.mem_map] at hmem
          obtain ⟨y, hy, hyu⟩ := hmem
          have := (hprops y hy).2
          rw [hyu] at this
          exact this (List.mem_cons_self _ _)
        · intro it hit
          rcases List.mem_cons.mp hit with h | h
          · rw [h]; exact ⟨hu, hs⟩
          · obtain ⟨h1, h2⟩ := hprops it h
            exact ⟨h1, fun hc => h2 (List.mem_cons_of_mem _ hc)⟩

theorem dedupeAux_fixpoint :
    ∀ (items : List Item) (seen : List String),
      (∀ it ∈ items, it.url ≠ "" ∧ it.url ∉ seen) →
      (items.map Item.url).Nodup →
      dedupeAux seen items = items := by
  intro items
  induction items with
  | nil => intro seen _ _; rfl
  | cons x rest ih =>
    intro seen hprops hnd
    obtain ⟨hu, hs⟩ := hprops x (List.mem_cons_self _ _)
    rw [dedupeAux, if_neg hu, if_neg hs]
    congr 1
    rw [List.map_cons, List.nodup_cons] at hnd
    apply ih
    · intro it hit
      obtain ⟨h1, h2⟩ := hprops it (List.mem_cons_of_mem _ hit)
      refine ⟨h1, ?_⟩
      intro hc
      rcases List.mem_cons.mp hc with h | h
      · exact hnd.1 (h ▸ List.mem_map_of_mem Item.url hit)
      · exact h2 h
    · exact hnd.2

theorem dedupeAux_all_seen :
    ∀ (items : List Item) (seen : List String),
      (∀ it ∈ items, it.url ∈ seen) →
      dedupeAux seen items = [] := by
  intro items
  induction items with
  | nil => intro seen _; rfl
  | cons x rest ih =>
    intro seen h
    by_cases hu : x.url = ""
    · rw [dedupeAux, if_pos hu]
      exact ih seen (fun it hit => h it (List.mem_cons_of_mem _ hit))
    · rw [dedupeAux, if_neg hu, if_pos (h x (List.mem_cons_self _ _))]
      exact ih seen (fun it hit => h it (List.mem_cons_of_mem _ hit))

/-- C2: dedupe_by_url keeps exactly the first occurrence per non-empty url
(it equals the first-seen filter described by the claim), it is idempotent,
and a list of exact-url duplicates collapses to its first element. -/
theorem dedupe_by_url_claim (items : List Item) :
    dedupe_by_url items = dedupeFirstSeen [] items ∧
    dedupe_by_url (dedupe_by_url items) = dedupe_by_url items ∧
    ∀ (x : Item) (rest : List Item), x.url ≠ "" → (∀ y ∈ rest, y.url = x.url) →
      dedupe_by_url (x :: rest) = [x] := by
  refine ⟨?_, ?_, ?_⟩
  · exact dedupeAux_eq_firstSeen items [] [] (fun u _ => Iff.rfl)
  · obtain ⟨hnd, hprops⟩ := dedupeAux_nodup_props items []
    exact dedupeAux_fixpoint (dedupe_by_url items) [] (fun it hit => (hprops it hit)) hnd
  · intro x rest hx hall
    show dedupeAux [] (x :: rest) = [x]
    rw [dedupeAux, if_neg hx, if_neg (List.not_mem_nil x.url)]
    rw [dedupeAux_all_seen rest [x.url]
      (fun y hy => by rw [hall y hy]; exact List.mem_cons_self _ _)]

/-- Concrete item used in witnesses: a plain rss-style item. -/
def itemW1 : Item :=
  ⟨"p:s:https://a", "p", "s", "first", "https://a", "1/1 10:00", 100, "sum",
    ["t"], 3, "unclear", "manual_preferred", false, "low"⟩

/-- Concrete item sharing the url of itemW1 but otherwise different. -/
def itemW2 : Item :=
  ⟨"p:s:https://a", "p", "s", "second", "https://a", "1/2 10:00", 200, "sum2",
    [], 3, "unclear", "manual_preferred", false, "low"⟩

theorem dedupe_by_url_claim_witness :
    dedupe_by_url [itemW1, itemW2, itemW2] = [itemW1] :=
  (dedupe_by_url_claim []).2.2 itemW1 [itemW2, itemW2] (by decide) (by decide)

/-- Ranking relation of sort_newest: the less-or-equal order induced by the
Python sort key (-importance, -published_ts) compared lexicographically. -/
def sortKeyLe (a b : Item) : Prop :=
  b.importance < a.importance ∨
    (a.importance = b.importance ∧ b.published_ts ≤ a.published_ts)

instance : DecidableRel sortKeyLe := fun a b => by
  unfold sortKeyLe; infer_instance

instance : IsTotal Item sortKeyLe := by
  constructor
  intro a b
  rcases lt_trichotomy a.importance b.importance with h | h | h
  · exact Or.inr (Or.inl h)
  · rcases le_total a.published_ts b.published_ts with hts | hts
    · exact Or.inr (Or.inr ⟨h.symm, hts⟩)
    · exact Or.inl (Or.inr ⟨h, hts⟩)
  · exact Or.inl (Or.inl h)

instance : IsTrans Item sortKeyLe := by
  constructor
  intro a b c hab hbc
  unfold sortKeyLe at *
  rcases hab with h1 | ⟨h1, h2⟩ <;> rcases hbc with h3 | ⟨h3, h4⟩
  · exact Or.inl (h3.trans h1)
  · exact Or.inl (h3 ▸ h1)
  · exact Or.inl (h1 ▸ h3)
  · exact Or.inr ⟨h1.trans h3, h4.trans h2⟩

/-- Embedding of sort_newest: the stable sort of Python, sorting by
importance descending then published_ts descending. -/
def sort_newest (items : List Item) : List Item :=
  List.insertionSort sortKeyLe items

theorem insertionSort_filter_stable (p : Item → Bool)
    (hp : ∀ a b : Item, p a = true → p b = true → sortKeyLe a b) :
    ∀ l : List Item,
      (List.insertionSort sortKeyLe l).filter p = l.filter p := by
  intro l
  induction l with
  | nil => rfl
  | cons a l ih =>
    have hsplit :
        List.insertionSort sortKeyLe (a :: l) =
          ((List.insertionSort sortKeyLe l).takeWhile fun b => ¬sortKeyLe a b) ++
            a :: ((List.insertionSort sortKeyLe l).dropWhile fun b => ¬sortKeyLe a b) :=
      List.insertionSort_cons_eq_take_drop sortKeyLe a l
    have htake :
        ((List.insertionSort sortKeyLe l).takeWhile
            (fun b => decide (¬sortKeyLe a b))).filter p = [] ∨ p a = false := by
      by_cases hpa : p a = true
      · left
        rw [List.filter_eq_nil_iff]
        intro x hx hpx
        have hq := List.mem_takeWhile_imp hx
        exact (of_decide_eq_true hq) (hp a x hpa hpx)
      · right; exact Bool.not_eq_true _ ▸ (by revert hpa; cases p a <;> simp)
    have hparts :
        ((List.insertionSort sortKeyLe l).takeWhile
            (fun b => decide (¬sortKeyLe a b))).filter p ++
          ((List.insertionSort sortKeyLe l).dropWhile
            (fun b => decide (¬sortKeyLe a b))).filter p = l.filter p := by
      rw [← List.filter_append, List.takeWhile_append_dropWhile]
      exact ih
    rw [hsplit, List.filter_append]
    by_cases hpa : p a = true
    · rcases htake with hnil | hfalse
      · rw [hnil]
        rw [List.filter_cons_of_pos hpa]
        rw [hnil] at hparts
        rw [List.nil_append] at hparts ⊢
        rw [hparts, List.filter_cons_of_pos hpa]
      · rw [hfalse] at hpa; cases hpa
    · have hpa' : p a = false := by revert hpa; cases p a <;> simp
      rw [List.filter_cons_of_neg (by rw [hpa']; exact Bool.false_ne_true)]
      rw [hparts, List.filter_cons_of_neg (by rw [hpa']; exact Bool.false_ne_true)]

/-- Item A of the claim: importance 5, timestamp 100. -/
def itemA : Item :=
  ⟨"p:s:a", "p", "s", "A", "a", "", 100, "", [], 5, "unclear", "m", false, "low"⟩

/-- Item B of the claim: importance 5, timestamp 200. -/
def itemB : Item :=
  ⟨"p:s:b", "p", "s", "B", "b", "", 200, "", [], 5, "unclear", "m", false, "low"⟩

/-- Item C of the claim: importance 4, timestamp 9999. -/
def itemC : Item :=
  ⟨"p:s:c", "p", "s", "C", "c", "", 9999, "", [], 4, "unclear", "m", false, "low"⟩

/-- C3: sort_newest orders by importance descending then published_ts
descending (every adjacent pair satisfies sortKeyLe), permutes the input, is
stable (the subsequence of items having any fixed importance and timestamp is
exactly preserved), and ranks the concrete examples of the claim as stated. -/
theorem sort_newest_claim (items : List Item) :
    List.Sorted sortKeyLe (sort_newest items) ∧
    (sort_newest items).Perm items ∧
    (∀ imp ts : Int,
      (sort_newest items).filter
          (fun x => decide (x.importance = imp) && decide (x.published_ts = ts)) =
        items.filter
          (fun x => decide (x.importance = imp) && decide (x.published_ts = ts))) ∧
    sort_newest [itemA, itemB] = [itemB, itemA] ∧
    sort_newest [itemC, itemA] = [itemA, itemC] ∧
    sort_newest [itemA, itemC] = [itemA, itemC] := by
  refine ⟨List.sorted_insertionSort sortKeyLe items,
    List.perm_insertionSort sortKeyLe items, ?_, by decide, by decide, by decide⟩
  intro imp ts
  apply insertionSort_filter_stable
  intro a b ha hb
  rw [Bool.and_eq_true, decide_eq_true_iff, decide_eq_true_iff] at ha hb
  exact Or.inr ⟨ha.1.trans hb.1.symm, hb.2.le.trans (le_of_eq ha.2.symm)⟩

/-- Whitespace test used by strip() and by the character class of the regular
expressions of the pipeline, restricted to the ASCII range handled here. -/
def pySpace (c : Char) : Bool :=
  c = ' ' ∨ c = '\t' ∨ c = '\n' ∨ c = '\r' ∨ c.toNat = 11 ∨ c.toNat = 12

/-- Character-list form of strip(): remove leading and trailing whitespace. -/
def stripChars (cs : List Char) : List Char :=
  ((cs.dropWhile pySpace).reverse.dropWhile pySpace).reverse

/-- Embedding of strip() on strings. -/
def pyStrip (s : String) : String :=
  ⟨stripChars s.data⟩

/-- Embedding of safe_text: replace every newline with a space, then strip.
The Python source first substitutes None by the empty string; fields are
modelled as strings, with absence already rendered as the empty string. -/
def safe_text (s : String) : String :=
  pyStrip ⟨s.data.map (fun c => if c = '\n' then ' ' else c)⟩

/-- Loop for the whitespace-collapsing substitution sub(r with one-or-more
whitespace, a single space): the flag records whether the previous character
was inside a whitespace run that already emitted its space. -/
def collapseWsAux (prevSpace : Bool) : List Char → List Char
  | [] => []
  | c :: rest =>
    if pySpace c then
      if prevSpace then collapseWsAux true rest
      else ' ' :: collapseWsAux true rest
    else c :: collapseWsAux false rest

/-- Substitution of every maximal whitespace run by one space. -/
def collapseWs (cs : List Char) : List Char :=
  collapseWsAux false cs

/-- Removal of a leading bracketed tag: the anchored substitution deletes an
opening bracket, one or more non-bracket characters, the closing bracket and
any following whitespace, when present at the very start. -/
def dropLeadingTag (cs : List Char) : List Char :=
  match cs with
  | '[' :: rest =>
    let inner := rest.takeWhile (fun c => c ≠ ']')
    let after := rest.dropWhile (fun c => c ≠ ']')
    match after with
    | ']' :: tail => if inner.isEmpty then cs else tail.dropWhile pySpace
    | _ => cs
  | _ => cs

/-- Embedding of clean_title_for_digest: strip, drop a leading bracketed tag,
collapse whitespace runs. -/
def clean_title_for_digest (title : String) : String :=
  ⟨collapseWs (dropLeadingTag (stripChars title.data))⟩

/-- Recency relation of the digest sort: published_ts descending.  Python
sorted with reverse is stable, hence the insertion sort below with the
greater-or-equal relation. -/
def tsGe (a b : Item) : Prop :=
  b.published_ts ≤ a.published_ts

instance : DecidableRel tsGe := fun a b => by
  unfold tsGe; infer_instance

/-- Line-selection loop of make_digest_block over the recency-sorted items:
skip empty cleaned titles, skip titles already selected, truncate beyond 80
characters, stop once max_lines lines are selected. -/
def digest_loop (max_lines : Nat) : List Item → List String → List String
  | [], lines => lines
  | it :: rest, lines =>
    let title := clean_title_for_digest it.title
    if title = "" then digest_loop max_lines rest lines
    else if title ∈ lines then digest_loop max_lines rest lines
    else
      let title2 := if 80 < title.length then (⟨title.data.take 77⟩ : String) ++ "…" else title
      let lines2 := lines ++ [title2]
      if max_lines ≤ lines2.length then lines2 else digest_loop max_lines rest lines2

/-- Digest lines of make_digest_block: sort by published_ts descending, then
run the selection loop with no line selected yet. -/
def digest_lines (items : List Item) (max_lines : Nat) : List String :=
  digest_loop max_lines (List.insertionSort tsGe items) []

/-- Placeholder card emitted when no digest line was selected. -/
def noItemsCard (label : String) : String :=
  "<div class='card'>" ++
    "<div class='meta'><span class='badge imp'>今日の要約（" ++ label ++ "）</span></div>" ++
    "<div class='summary'>（該当ニュースなし）</div>" ++
    "</div>"

/-- Embedding of make_digest_block: the html card of the selected lines, or
the placeholder card when no line was selected. -/
def make_digest_block (label : String) (items : List Item) (max_lines : Nat) : String :=
  let lines := digest_lines items max_lines
  if lines = [] then
    noItemsCard label
  else
    let lis := String.join (lines.map (fun x => "<li>" ++ safe_text x ++ "</li>"))
    "<div class='card'>" ++
      "<div class='meta'><span class='badge imp'>今日の要約（" ++ label ++ "）</span></div>" ++
      "<div class='summary'><ul style='margin:6px 0 0 18px;padding:0'>" ++ lis ++ "</ul></div>" ++
      "</div>"

/-- Item with an 81-character title, timestamp 200. -/
def itemT1 : Item :=
  ⟨"p:s:t1", "p", "s", ⟨List.replicate 81 'a'⟩, "t1", "", 200, "", [], 3,
    "unclear", "m", false, "low"⟩

/-- Item with the same 81-character title as itemT1, timestamp 100. -/
def itemT2 : Item :=
  ⟨"p:s:t2", "p", "s", ⟨List.replicate 81 'a'⟩, "t2", "", 100, "", [], 3,
    "unclear", "m", false, "low"⟩

/-- C6 counterexample: two items whose titles clean to the same 81-character
string yield two identical digest lines, because the duplicate check compares
the untruncated cleaned title against the already-truncated selected lines. -/
theorem digest_duplicate_cex :
    clean_title_for_digest itemT1.title = clean_title_for_digest itemT2.title ∧
    digest_lines [itemT1, itemT2] 6 =
      [(⟨List.replicate 77 'a'⟩ : String) ++ "…", (⟨List.replicate 77 'a'⟩ : String) ++ "…"] := by
  exact ⟨rfl, by decide⟩

theorem digest_loop_nodup (n : Nat) :
    ∀ (l : List Item) (lines : List String),
      (∀ it ∈ l, (clean_title_for_digest it.title).length ≤ 80) →
      lines.Nodup → (digest_loop n l lines).Nodup := by
  intro l
  induction l with
  | nil => intro lines _ h; exact h
  | cons it rest ih =>
    intro lines hlen hnd
    rw [digest_loop]
    by_cases h1 : clean_title_for_digest it.title = ""
    · rw [if_pos h1]
      exact ih lines (fun x hx => hlen x (List.mem_cons_of_mem _ hx)) hnd
    · rw [if_neg h1]
      by_cases h2 : clean_title_for_digest it.title ∈ lines
      · rw [if_pos h2]
        exact ih lines (fun x hx => hlen x (List.mem_cons_of_mem _ hx)) hnd
      · rw [if_neg h2]
        have hle : ¬(80 < (clean_title_for_digest it.title).length) := by
          have := hlen it (List.mem_cons_self _ _)
          omega
        rw [if_neg hle]
        have hnd2 : (lines ++ [clean_title_for_digest it.title]).Nodup := by
          rw [List.nodup_append]
          exact ⟨hnd, List.nodup_singleton _,
            fun x hx hx1 => h2 ((List.mem_singleton.mp hx1) ▸ hx)⟩
        by_cases h3 : n ≤ (lines ++ [clean_title_for_digest it.title]).length
        · rw [if_pos h3]; exact hnd2
        · rw [if_neg h3]
          exact ih _ (fun x hx => hlen x (List.mem_cons_of_mem _ hx)) hnd2

/-- C6 amended: when every cleaned title has length at most 80, so that
truncation does not fire, the digest lines are pairwise distinct; in
particular two items with identical cleaned titles yield at most one line. -/
theorem digest_nodup_amended (items : List Item) (n : Nat)
    (h : ∀ it ∈ items, (clean_title_for_digest it.title).length ≤ 80) :
    (digest_lines items n).Nodup := by
  apply digest_loop_nodup n (List.insertionSort tsGe items) []
  · intro it hit
    exact h it ((List.perm_insertionSort tsGe items).mem_iff.mp hit)
  · exact List.nodup_nil

theorem digest_nodup_amended_witness :
    (digest_lines [itemW1, itemW2] 6).Nodup :=
  digest_nodup_amended [itemW1, itemW2] 6 (by decide)

theorem digest_loop_all_empty (n : Nat) :
    ∀ (l : List Item) (lines : List String),
      (∀ it ∈ l, clean_title_for_digest it.title = "") →
      digest_loop n l lines = lines := by
  intro l
  induction l with
  | nil => intro lines _; rfl
  | cons it rest ih =>
    intro lines h
    rw [digest_loop, if_pos (h it (List.mem_cons_self _ _))]
    exact ih lines (fun x hx => h x (List.mem_cons_of_mem _ hx))

theorem digest_loop_skip_empty (n : Nat) (it : Item)
    (h : clean_title_for_digest it.title = "") :
    ∀ (xs ys : List Item) (lines : List String),
      digest_loop n (xs ++ it :: ys) lines = digest_loop n (xs ++ ys) lines := by
  intro xs
  induction xs with
  | nil =>
    intro ys lines
    rw [List.nil_append, List.nil_append, digest_loop, if_pos h]
  | cons x xs ih =>
    intro ys lines
    rw [List.cons_append, List.cons_append, digest_loop, digest_loop]
    by_cases h1 : clean_title_for_digest x.title = ""
    · rw [if_pos h1, if_pos h1]; exact ih ys lines
    · rw [if_neg h1, if_neg h1]
      by_cases h2 : clean_title_for_digest x.title ∈ lines
      · rw [if_pos h2, if_pos h2]; exact ih ys lines
      · rw [if_neg h2, if_neg h2]
        by_cases h3 : n ≤ (lines ++
            [if 80 < (clean_title_for_digest x.title).length then
              ((⟨(clean_title_for_digest x.title).data.take 77⟩ : String) ++ "…")
            else clean_title_for_digest x.title]).length
        · rw [if_pos h3, if_pos h3]
        · rw [if_neg h3, if_neg h3]; exact ih ys _

/-- C10: an item whose title cleans to the empty string contributes no digest
line: deleting such an item anywhere in the scanned list leaves the selection
loop unchanged, and when every item of the list cleans to empty the block is
exactly the no-items placeholder card. -/
theorem digest_empty_title_claim :
    (∀ (n : Nat) (it : Item) (xs ys : List Item) (lines : List String),
      clean_title_for_digest it.title = "" →
      digest_loop n (xs ++ it :: ys) lines = digest_loop n (xs ++ ys) lines) ∧
    (∀ (label : String) (items : List Item) (n : Nat),
      (∀ it ∈ items, clean_title_for_digest it.title = "") →
      make_digest_block label items n = noItemsCard label) := by
  constructor
  · intro n it xs ys lines h
    exact digest_loop_skip_empty n it h xs ys lines
  · intro label items n h
    have hnil : digest_lines items n = [] := by
      apply digest_loop_all_empty
      intro it hit
      exact h it ((List.perm_insertionSort tsGe items).mem_iff.mp hit)
    unfold make_digest_block
    rw [hnil]
    rfl

/-- Item with an empty title. -/
def itemE1 : Item :=
  ⟨"p:s:e1", "p", "s", "", "e1", "", 300, "", [], 3, "unclear", "m", false, "low"⟩

/-- Item with a whitespace-only title. -/
def itemE2 : Item :=
  ⟨"p:s:e2", "p", "s", "   ", "e2", "", 200, "", [], 3, "unclear", "m", false, "low"⟩

/-- Item whose title is a lone bracketed tag, cleaning to the empty string. -/
def itemE3 : Item :=
  ⟨"p:s:e3", "p", "s", "[速報] ", "e3", "", 100, "", [], 3, "unclear", "m", false, "low"⟩

theorem digest_empty_title_claim_witness :
    make_digest_block "投資" [itemE1, itemE2, itemE3] 6 = noItemsCard "投資" :=
  digest_empty_title_claim.2 "投資" [itemE1, itemE2, itemE3] 6 (by decide)

/-- Leap year of the proleptic Gregorian calendar. -/
def isLeap (y : Nat) : Bool :=
  (y % 4 = 0 ∧ y % 100 ≠ 0) ∨ y % 400 = 0

/-- Length of a month (months numbered 1 to 12). -/
def daysInMonth (y : Nat) (m : Nat) : Nat :=
  if m = 2 then (if isLeap y then 29 else 28)
  else if m = 4 ∨ m = 6 ∨ m = 9 ∨ m = 11 then 30
  else 31

/-- Days before January 1 of year y, counted from January 1 of year 1. -/
def daysBeforeYear (y : Nat) : Nat :=
  365 * (y - 1) + ((y - 1) / 4 - (y - 1) / 100) + (y - 1) / 400

/-- Days of year y before the first day of month m. -/
def daysBeforeMonth (y : Nat) (m : Nat) : Nat :=
  ((List.range (m - 1)).map (fun i => daysInMonth y (i + 1))).sum

/-- Epoch day number of a calendar date; 1970-01-01 is day 0. -/
def epochDays (y m d : Nat) : Int :=
  (daysBeforeYear y + daysBeforeMonth y m + d : Int) - 719163

/-- Wall-clock datetime in the fixed pipeline timezone (UTC+9 for the whole
modelled era, without daylight saving); microseconds are dropped. -/
structure DateTime where
  year : Nat
  month : Nat
  day : Nat
  hour : Nat
  minute : Nat
  second : Nat
  deriving DecidableEq, Repr

/-- Epoch timestamp of an aware datetime of the fixed +9 hour timezone. -/
def tsOf (dt : DateTime) : Int :=
  epochDays dt.year dt.month dt.day * 86400 +
    (dt.hour * 3600 + dt.minute * 60 + dt.second : Int) - 32400

/-- Constructor datetime(year, month, day, hour, minute) of the standard
library: validates the field ranges and raises ValueError outside them,
returned here as none. -/
def mkDatetime (y mon d hh mi : Nat) : Option DateTime :=
  if 1 ≤ y ∧ y ≤ 9999 ∧ 1 ≤ mon ∧ mon ≤ 12 ∧ 1 ≤ d ∧ d ≤ daysInMonth y mon ∧
      hh ≤ 23 ∧ mi ≤ 59 then
    some ⟨y, mon, d, hh, mi, 0⟩
  else none

/-- Digit test of the regex digit class, ASCII range. -/
def pyDigit (c : Char) : Bool :=
  '0' ≤ c ∧ c ≤ '9'

/-- Numeric value of a digit character. -/
def digitVal (c : Char) : Nat :=
  c.toNat - 48

/-- Greedy match of one or two digits directly followed by a literal
non-digit stop character: the engine prefers two digits and falls back to
one; a one-digit fallback after two digits cannot succeed because the second
digit is not the stop character. -/
def matchNumThen (stop : Char) : List Char → Option (Nat × List Char)
  | a :: rest =>
    if pyDigit a then
      match rest with
      | b :: rest2 =>
        if pyDigit b then
          match rest2 with
          | c :: rest3 =>
            if c = stop then some (10 * digitVal a + digitVal b, rest3) else none
          | [] => none
        else if b = stop then some (digitVal a, rest2) else none
      | [] => none
    else none
  | [] => none

/-- Greedy match of one or two digits followed by one or more whitespace
characters, consuming the whole whitespace run. -/
def matchNumThenSpaces : List Char → Option (Nat × List Char)
  | a :: rest =>
    if pyDigit a then
      match rest with
      | b :: rest2 =>
        if pyDigit b then
          match rest2 with
          | c :: rest3 =>
            if pySpace c then some (10 * digitVal a + digitVal b, rest3.dropWhile pySpace)
            else none
          | [] => none
        else if pySpace b then some (digitVal a, rest2.dropWhile pySpace) else none
      | [] => none
    else none
  | [] => none

/-- Match of exactly two digits; further characters are unconstrained. -/
def matchTwoDigits : List Char → Option Nat
  | a :: b :: _ => if pyDigit a ∧ pyDigit b then some (10 * digitVal a + digitVal b) else none
  | _ => none

/-- Attempt of the year-less pattern (month, slash, day, whitespace, hour,
colon, two minute digits) at one position of the text. -/
def matchMdhmAt (cs : List Char) : Option (Nat × Nat × Nat × Nat) :=
  match matchNumThen '/' cs with
  | none => none
  | some (mon, r1) =>
    match matchNumThenSpaces r1 with
    | none => none
    | some (d, r2) =>
      match matchNumThen ':' r2 with
      | none => none
      | some (hh, r3) =>
        match matchTwoDigits r3 with
        | none => none
        | some mi => some (mon, d, hh, mi)

/-- Leftmost search of the year-less pattern, as performed by re.search. -/
def reSearchMdhm : List Char → Option (Nat × Nat × Nat × Nat)
  | [] => none
  | c :: rest =>
    match matchMdhmAt (c :: rest) with
    | some r => some r
    | none => reSearchMdhm rest

/-- Embedding of parse_timestamp_fallback.  The general dateutil parse of the
final branch is an external library passed in as gp, yielding the epoch
value of the parsed string (after the naive-timezone fix of the source) or
none when the library raises; that branch sits inside try/except and cannot
propagate an exception.  The year-less branch constructs its datetime outside
any try block, so a ValueError there propagates out as Except.error. -/
def parse_timestamp_fallback (gp : String → Option Int) (published_str : String)
    (now : DateTime) : Except String Int :=
  let s := pyStrip published_str
  if s = "" then .ok 0
  else
    match reSearchMdhm s.data with
    | some (mon, d, hh, mi) =>
      match mkDatetime now.year mon d hh mi with
      | none => .error "ValueError"
      | some dt =>
        if tsOf now + 86400 < tsOf dt then
          match mkDatetime (now.year - 1) mon d hh mi with
          | none => .error "ValueError"
          | some dt2 => .ok (tsOf dt2)
        else .ok (tsOf dt)
    | none =>
      match gp s with
      | some v => .ok v
      | none => .ok 0

/-- C4: the year-less branch of parse_timestamp_fallback feeds the raw regex
fields to the datetime constructor outside any try block, so a non-existent
date such as February 30 raises ValueError out of the function instead of
yielding 0, for every run time and every behaviour of the external general
parser. -/
theorem parse_timestamp_fallback_raises (gp : String → Option Int) (now : DateTime) :
    parse_timestamp_fallback gp "2/30 10:00" now = .error "ValueError" := by
  unfold parse_timestamp_fallback
  have hs : pyStrip "2/30 10:00" = "2/30 10:00" := rfl
  rw [hs, if_neg (by decide)]
  have hr : reSearchMdhm ("2/30 10:00" : String).data = some (2, 30, 10, 0) := by decide
  rw [hr]
  have hdim : daysInMonth now.year 2 ≤ 29 := by
    unfold daysInMonth
    rw [if_pos rfl]
    cases isLeap now.year <;> simp
  have hmk : mkDatetime now.year 2 30 10 0 = none := by
    unfold mkDatetime
    rw [if_neg]
    intro hc
    have h30 : (30 : Nat) ≤ daysInMonth now.year 2 := hc.2.2.2.2.2.1
    omega
  dsimp only
  rw [hmk]

/-- C5: when the year-less pattern matches the stripped input and its fields
form a valid datetime of the current run year, that candidate date is used;
the result is its timestamp unless the candidate lies more than one day after
the run time, in which case the timestamp of the same date of the previous
year is returned instead. -/
theorem parse_timestamp_fallback_yearless (gp : String → Option Int)
    (s : String) (now : DateTime) (mon d hh mi : Nat) (dt : DateTime)
    (hsearch : reSearchMdhm (pyStrip s).data = some (mon, d, hh, mi))
    (hmk : mkDatetime now.year mon d hh mi = some dt) :
    (tsOf dt ≤ tsOf now + 86400 →
      parse_timestamp_fallback gp s now = .ok (tsOf dt)) ∧
    (∀ dt2 : DateTime, tsOf now + 86400 < tsOf dt →
      mkDatetime (now.year - 1) mon d hh mi = some dt2 →
      parse_timestamp_fallback gp s now = .ok (tsOf dt2)) := by
  have hne : ¬(pyStrip s = "") := by
    intro h
    rw [h] at hsearch
    exact Option.noConfusion hsearch
  constructor
  · intro hle
    unfold parse_timestamp_fallback
    rw [if_neg hne, hsearch]
    dsimp only
    rw [hmk]
    dsimp only
    rw [if_neg (by omega)]
  · intro dt2 hgt hmk2
    unfold parse_timestamp_fallback
    rw [if_neg hne, hsearch]
    dsimp only
    rw [hmk]
    dsimp only
    rw [if_pos hgt, hmk2]

/-- General parser that always fails, standing for dateutil on inputs it
cannot parse. -/
def gpNone : String → Option Int := fun _ => none

/-- Run time 2024-12-31 23:59 local. -/
def nowDec2024 : DateTime := ⟨2024, 12, 31, 23, 59, 0⟩

/-- Run time 2024-01-02 00:00 local. -/
def nowJan2024 : DateTime := ⟨2024, 1, 2, 0, 0, 0⟩

theorem parse_timestamp_fallback_yearless_witness :
    parse_timestamp_fallback gpNone "12/31 23:59" nowDec2024 =
      .ok (tsOf ⟨2024, 12, 31, 23, 59, 0⟩) ∧
    parse_timestamp_fallback gpNone "12/31 23:59" nowJan2024 =
      .ok (tsOf ⟨2023, 12, 31, 23, 59, 0⟩) := by
  constructor
  · exact (parse_timestamp_fallback_yearless gpNone "12/31 23:59" nowDec2024
      12 31 23 59 ⟨2024, 12, 31, 23, 59, 0⟩ (by decide) (by decide)).1 (by decide)
  · exact (parse_timestamp_fallback_yearless gpNone "12/31 23:59" nowJan2024
      12 31 23 59 ⟨2024, 12, 31, 23, 59, 0⟩ (by decide) (by decide)).2
      ⟨2023, 12, 31, 23, 59, 0⟩ (by decide) (by decide)

/-- Embedding of the allow/deny filter of the rss loop in main: the joined
text is title, one space, summary; the entry is dropped when some deny
keyword occurs in the joined text and no allow keyword does.  Python
substring containment of a keyword is infix containment of its character
list. -/
def drop_entry (allow_keywords deny_keywords : List String)
    (title summary : String) : Bool :=
  let joined := title ++ " " ++ summary
  let allow_hit := allow_keywords.any (fun k => decide (k.data <:+: joined.data))
  let deny_hit := deny_keywords.any (fun k => decide (k.data <:+: joined.data))
  deny_hit && !allow_hit

/-- C1: an entry is dropped precisely when some deny keyword is a substring
of the combined title-space-summary text and no allow keyword is (so an
entry matching both lists is retained), and with both keyword lists empty,
the default for an absent configuration, every entry is retained. -/
theorem drop_entry_claim (allow_keywords deny_keywords : List String)
    (title summary : String) :
    (drop_entry allow_keywords deny_keywords title summary = true ↔
      ((∃ k ∈ deny_keywords, k.data <:+: (title ++ " " ++ summary).data) ∧
        ¬∃ k ∈ allow_keywords, k.data <:+: (title ++ " " ++ summary).data)) ∧
    drop_entry [] [] title summary = false := by
  constructor
  · simp [drop_entry, List.any_eq_true]
  · rfl

/-- Record of the edinet daily response, with the fields read by main; the
docTypeCode field holds the string conversion already applied by the source
(absent or null codes are the empty string). -/
structure EdinetRecord where
  docTypeCode : String
  docDescription : String
  filerName : String
  secCode : String
  docID : String
  submitDateTime : String
  deriving DecidableEq, Repr

/-- Embedding of iso_timestamp: empty input is 0, otherwise the external
dateutil parse (passed as gp, exceptions as none) with failures yielding 0. -/
def iso_timestamp (gp : String → Option Int) (s : String) : Int :=
  if s = "" then 0 else (gp s).getD 0

/-- Item built from one edinet record in main, with the field expressions of
the source. -/
def mkEdinetItem (gp : String → Option Int) (pack srcid srcname llm_mode : String)
    (r : EdinetRecord) : Item :=
  let title := safe_text r.docDescription
  let filer := safe_text r.filerName
  let sec := safe_text r.secCode
  let doc_id := safe_text r.docID
  let published := safe_text r.submitDateTime
  { id := pack ++ ":" ++ srcid ++ ":" ++ doc_id
    topic_pack := pack
    source := srcname
    title := if filer ≠ "" then filer ++ " " ++ title else title
    url := if doc_id ≠ "" then
        "https://disclosure.edinet-fsa.go.jp/api/v2/documents/" ++ doc_id ++ "?type=2"
      else ""
    published_at := published
    published_ts := iso_timestamp gp published
    summary_short := if sec ≠ "" then "EDINET提出: " ++ title ++ " / 証券コード: " ++ sec
      else "EDINET提出: " ++ title
    tags := ["法定開示"]
    importance := 4
    impact := "unclear"
    llm_mode := llm_mode
    llm_draft := true
    llm_confidence := "low" }

/-- Record loop of the edinet branch: a record is skipped when the allow-list
is non-empty, its code is non-empty and the code is not in the allow-list. -/
def edinet_loop (gp : String → Option Int) (pack srcid srcname llm_mode : String)
    (include_codes : List String) : List EdinetRecord → List Item
  | [] => []
  | r :: rs =>
    if include_codes ≠ [] ∧ r.docTypeCode ≠ "" ∧ r.docTypeCode ∉ include_codes then
      edinet_loop gp pack srcid srcname llm_mode include_codes rs
    else
      mkEdinetItem gp pack srcid srcname llm_mode r ::
        edinet_loop gp pack srcid srcname llm_mode include_codes rs

/-- Embedding of the edinet branch of main over the fetched result list:
records are capped at 400 before the loop. -/
def edinet_items (gp : String → Option Int) (pack srcid srcname llm_mode : String)
    (include_codes : List String) (results : List EdinetRecord) : List Item :=
  edinet_loop gp pack srcid srcname llm_mode include_codes (results.take 400)

/-- Record with an empty document-type code. -/
def recNoCode : EdinetRecord := ⟨"", "desc", "filer", "", "D1", ""⟩

/-- Record whose document-type code is outside the allow-list used below. -/
def recCode350 : EdinetRecord := ⟨"350", "other", "f2", "", "D2", ""⟩

/-- C8 counterexample: with the non-empty allow-list holding only code 030, a
record whose document-type code is empty is not skipped and yields an item,
although its code is not a member of the allow-list. -/
theorem edinet_empty_code_cex :
    edinet_items gpNone "p" "s" "src" "m" ["030"] [recNoCode] =
      [mkEdinetItem gpNone "p" "s" "src" "m" recNoCode] ∧
    recNoCode.docTypeCode ∉ ["030"] := by
  exact ⟨rfl, by decide⟩

theorem edinet_loop_filter (gp : String → Option Int)
    (pack srcid srcname llm_mode : String) (include_codes : List String)
    (hne : include_codes ≠ []) :
    ∀ rs : List EdinetRecord,
      edinet_loop gp pack srcid srcname llm_mode include_codes rs =
        (rs.filter (fun r =>
            decide (r.docTypeCode = "") || decide (r.docTypeCode ∈ include_codes))).map
          (mkEdinetItem gp pack srcid srcname llm_mode) := by
  intro rs
  induction rs with
  | nil => rfl
  | cons r rest ih =>
    rw [edinet_loop]
    by_cases h : r.docTypeCode = "" ∨ r.docTypeCode ∈ include_codes
    · rw [if_neg (by
        intro hc
        rcases h with h | h
        · exact hc.2.1 h
        · exact hc.2.2 h)]
      rw [List.filter_cons_of_pos (by
        rcases h with h | h
        · simp [h]
        · simp [h])]
      rw [List.map_cons, ih]
    · rw [if_pos ⟨hne, fun hc => h (Or.inl hc), fun hc => h (Or.inr hc)⟩]
      rw [List.filter_cons_of_neg (by
        simp only [Bool.or_eq_true, decide_eq_true_iff]
        exact h)]
      exact ih

/-- C8 amended: with a non-empty allow-list at most 400 records are
processed, and a processed record yields an item exactly when its code is
empty or a member of the allow-list: records with a non-empty code outside
the allow-list are skipped, but records with an empty or absent code are
retained rather than skipped. -/
theorem edinet_items_amended (gp : String → Option Int)
    (pack srcid srcname llm_mode : String) (include_codes : List String)
    (results : List EdinetRecord) (hne : include_codes ≠ []) :
    edinet_items gp pack srcid srcname llm_mode include_codes results =
      ((results.take 400).filter (fun r =>
          decide (r.docTypeCode = "") || decide (r.docTypeCode ∈ include_codes))).map
        (mkEdinetItem gp pack srcid srcname llm_mode) ∧
    (edinet_items gp pack srcid srcname llm_mode include_codes results).length ≤ 400 := by
  have heq := edinet_loop_filter gp pack srcid srcname llm_mode include_codes hne
    (results.take 400)
  refine ⟨heq, ?_⟩
  show (edinet_loop gp pack srcid srcname llm_mode include_codes (results.take 400)).length ≤ 400
  rw [heq, List.length_map]
  calc ((results.take 400).filter _).length ≤ (results.take 400).length :=
        List.length_filter_le _ _
    _ ≤ 400 := by rw [List.length_take]; exact Nat.min_le_left _ _

theorem edinet_items_amended_witness :
    edinet_items gpNone "p" "s" "src" "m" ["030"] [recCode350] =
      (([recCode350].take 400).filter (fun r =>
          decide (r.docTypeCode = "") || decide (r.docTypeCode ∈ ["030"]))).map
        (mkEdinetItem gpNone "p" "s" "src" "m") ∧
    (edinet_items gpNone "p" "s" "src" "m" ["030"] [recCode350]).length ≤ 400 :=
  edinet_items_amended gpNone "p" "s" "src" "m" ["030"] [recCode350] (by decide)

/-- Feed entry as exposed by the feed library, restricted to the attributes
main reads.  Absent attributes are the empty string; parsedTs folds the
structured published or updated time together with its mktime conversion
(none when both attributes are missing or mktime raises). -/
structure Entry where
  title : String
  link : String
  summary : String
  published : String
  updated : String
  parsedTs : Option Int
  deriving DecidableEq, Repr

/-- Embedding of entry_timestamp: the structured time when present, else 0. -/
def entry_timestamp (e : Entry) : Int :=
  e.parsedTs.getD 0

/-- Rule sets of a topic pack, with absent lists already defaulted to empty
as by the source. -/
structure Rules where
  allow_keywords : List String
  deny_keywords : List String
  tag_keywords : List (String × List String)
  deriving Repr

/-- Embedding of tag_from_keywords: a tag is assigned when any of its
keywords occurs in the joined title-space-summary text; iteration order of
the dictionary is its insertion order, modelled as an association list. -/
def tag_from_keywords (title summary : String)
    (tag_keywords : List (String × List String)) : List String :=
  let text := title ++ " " ++ summary
  tag_keywords.filterMap (fun tk =>
    if tk.2.any (fun kw => decide (kw.data <:+: text.data)) then some tk.1 else none)

/-- Item built from one feed entry in main. -/
def mkRssItem (pack srcid srcname llm_mode : String) (base_importance : Int)
    (title url published summary : String) (published_ts : Int)
    (tags : List String) : Item :=
  { id := pack ++ ":" ++ srcid ++ ":" ++ url
    topic_pack := pack
    source := srcname
    title := title
    url := url
    published_at := published
    published_ts := published_ts
    summary_short := if summary ≠ "" then (⟨summary.data.take 180⟩ : String) else title
    tags := tags
    importance := base_importance
    impact := "unclear"
    llm_mode := llm_mode
    llm_draft := false
    llm_confidence := "low" }

/-- Entry loop of the rss branch: filter, resolve the timestamp (the
fallback may raise, which aborts the loop keeping the items already
normalized), tag, and append the item. -/
def rss_loop (gp : String → Option Int) (rules : Rules)
    (pack srcid srcname llm_mode : String) (base_importance : Int)
    (now : DateTime) : List Entry → List Item × Option String
  | [] => ([], none)
  | e :: es =>
    let published := safe_text (if e.published ≠ "" then e.published else e.updated)
    let title := safe_text e.title
    let url := safe_text e.link
    let summary := safe_text e.summary
    if drop_entry rules.allow_keywords rules.deny_keywords title summary then
      rss_loop gp rules pack srcid srcname llm_mode base_importance now es
    else
      match (if entry_timestamp e = 0 then parse_timestamp_fallback gp published now
             else .ok (entry_timestamp e)) with
      | .error msg => ([], some msg)
      | .ok published_ts =>
        let res := rss_loop gp rules pack srcid srcname llm_mode base_importance now es
        (mkRssItem pack srcid srcname llm_mode base_importance title url published
            summary published_ts
            (tag_from_keywords title summary rules.tag_keywords) :: res.1,
          res.2)

/-- Configured rss source together with the response its fetch produces in
the modelled run (an exception of the fetch or a parsed entry list). -/
structure RssSource where
  id : String
  name : String
  url : String
  base_importance : Int
  response : Except String (List Entry)

/-- Configured edinet source together with the response of its fetch. -/
structure EdinetSource where
  id : String
  name : String
  endpoint : String
  include_doc_type_codes : List String
  response : Except String (List EdinetRecord)

/-- Configured source of any type; other covers unrecognized type strings. -/
inductive Source where
  | rss : RssSource → Source
  | edinet : EdinetSource → Source
  | other : String → String → Source

/-- Per-source run outcome, as the status dictionary of main. -/
structure SourceStatus where
  name : String
  type : String
  ok : Bool
  error : String
  deriving DecidableEq, Repr

/-- Processing of one configured source inside the try block of main: the
pair of the items the source appended and its status record. -/
def process_source (gp iso : String → Option Int) (rules : Rules)
    (pack llm_mode api_key : String) (now : DateTime) :
    Source → List Item × SourceStatus
  | .rss s =>
    match s.response with
    | .error e => ([], ⟨s.name, "rss", false, e⟩)
    | .ok entries =>
      match rss_loop gp rules pack s.id s.name llm_mode s.base_importance now
          (entries.take 50) with
      | (its, none) => (its, ⟨s.name, "rss", true, ""⟩)
      | (its, some msg) => (its, ⟨s.name, "rss", false, msg⟩)
  | .edinet s =>
    if api_key = "" then
      ([], ⟨s.name, "edinet", false, "EDINET_API_KEY not set (skipped)"⟩)
    else
      match s.response with
      | .error e => ([], ⟨s.name, "edinet", false, e⟩)
      | .ok results =>
        (edinet_items iso pack s.id s.name llm_mode s.include_doc_type_codes results,
          ⟨s.name, "edinet", true, ""⟩)
  | .other n ty => ([], ⟨n, ty, false, "Unknown source type: " ++ ty⟩)

/-- Source loop of main threading the shared accumulators all_items and
sources_status_lines. -/
def collect_loop (gp iso : String → Option Int) (rules : Rules)
    (pack llm_mode api_key : String) (now : DateTime) :
    List Source → List Item → List SourceStatus → List Item × List SourceStatus
  | [], acc, sts => (acc, sts)
  | s :: rest, acc, sts =>
    let r := process_source gp iso rules pack llm_mode api_key now s
    collect_loop gp iso rules pack llm_mode api_key now rest (acc ++ r.1) (sts ++ [r.2])

/-- Collection phase over a source list with empty accumulators. -/
def collect_sources (gp iso : String → Option Int) (rules : Rules)
    (pack llm_mode api_key : String) (now : DateTime)
    (srcs : List Source) : List Item × List SourceStatus :=
  collect_loop gp iso rules pack llm_mode api_key now srcs [] []

theorem collect_loop_spec (gp iso : String → Option Int) (rules : Rules)
    (pack llm_mode api_key : String) (now : DateTime) :
    ∀ (srcs : List Source) (acc : List Item) (sts : List SourceStatus),
      collect_loop gp iso rules pack llm_mode api_key now srcs acc sts =
        (acc ++ (srcs.map
            (fun s => (process_source gp iso rules pack llm_mode api_key now s).1)).flatten,
          sts ++ srcs.map
            (fun s => (process_source gp iso rules pack llm_mode api_key now s).2)) := by
  intro srcs
  induction srcs with
  | nil => intro acc sts; simp [collect_loop]
  | cons s rest ih =>
    intro acc sts
    rw [collect_loop, ih]
    simp [List.append_assoc]

/-- C9 amended: source processing is isolated: the collection phase yields
the per-source item lists concatenated in configured order and exactly one
status per configured source, each pair depending only on its own source; a
fetch failure, a missing api key or an unknown source type is caught as ok
false with the message of the code and zero items, while a source failing in
the middle of its entry loop keeps the items normalized before the failure,
so a caught exception does not always mean zero contributed items. -/
theorem collect_sources_isolated (gp iso : String → Option Int) (rules : Rules)
    (pack llm_mode api_key : String) (now : DateTime) (srcs : List Source) :
    (collect_sources gp iso rules pack llm_mode api_key now srcs).1 =
      (srcs.map
        (fun s => (process_source gp iso rules pack llm_mode api_key now s).1)).flatten ∧
    (collect_sources gp iso rules pack llm_mode api_key now srcs).2 =
      srcs.map (fun s => (process_source gp iso rules pack llm_mode api_key now s).2) ∧
    (collect_sources gp iso rules pack llm_mode api_key now srcs).2.length =
      srcs.length ∧
    (∀ n ty : String, process_source gp iso rules pack llm_mode api_key now
        (.other n ty) = ([], ⟨n, ty, false, "Unknown source type: " ++ ty⟩)) ∧
    (∀ (s : RssSource) (e : String), s.response = .error e →
      process_source gp iso rules pack llm_mode api_key now (.rss s) =
        ([], ⟨s.name, "rss", false, e⟩)) ∧
    (api_key = "" → ∀ s : EdinetSource,
      process_source gp iso rules pack llm_mode api_key now (.edinet s) =
        ([], ⟨s.name, "edinet", false, "EDINET_API_KEY not set (skipped)"⟩)) := by
  have hspec := collect_loop_spec gp iso rules pack llm_mode api_key now srcs [] []
  refine ⟨?_, ?_, ?_, ?_, ?_, ?_⟩
  · show (collect_loop gp iso rules pack llm_mode api_key now srcs [] []).1 = _
    rw [hspec]
    simp
  · show (collect_loop gp iso rules pack llm_mode api_key now srcs [] []).2 = _
    rw [hspec]
    simp
  · show (collect_loop gp iso rules pack llm_mode api_key now srcs [] []).2.length = _
    rw [hspec]
    simp
  · intro n ty; rfl
  · intro s e he
    unfold process_source
    dsimp only
    rw [he]
  · intro hk s
    unfold process_source
    dsimp only
    rw [if_pos hk]

/-- Entry resolved from its structured feed time. -/
def entryGood : Entry := ⟨"Good title", "https://g", "sum", "", "", some 100⟩

/-- Entry without a structured time whose published text is a year-less
pattern naming a non-existent date, so the fallback raises ValueError. -/
def entryBad : Entry := ⟨"Bad title", "https://b", "s2", "2/30 10:00", "", none⟩

/-- Entry of the second, healthy source. -/
def entryGood2 : Entry := ⟨"Another", "https://g2", "s3", "", "", some 200⟩

/-- Empty rule sets. -/
def rules0 : Rules := ⟨[], [], []⟩

/-- Source whose second entry makes the fallback raise. -/
def badSrc : RssSource := ⟨"s1", "Source One", "http://feed1", 3, .ok [entryGood, entryBad]⟩

/-- Healthy source processed after the failing one. -/
def goodSrc : RssSource := ⟨"s2", "Source Two", "http://feed2", 3, .ok [entryGood2]⟩

/-- C9 counterexample: the source whose second entry raises ValueError in
the fallback ends with ok false, yet it contributes the one item normalized
before the failure, and the following source is processed normally: a caught
source-level exception does not imply zero contributed items. -/
theorem source_partial_items_cex :
    (collect_sources gpNone gpNone rules0 "p" "m" "" nowDec2024
        [.rss badSrc, .rss goodSrc]).2 =
      [⟨"Source One", "rss", false, "ValueError"⟩,
        ⟨"Source Two", "rss", true, ""⟩] ∧
    ((collect_sources gpNone gpNone rules0 "p" "m" "" nowDec2024
        [.rss badSrc, .rss goodSrc]).1.map Item.source) =
      ["Source One", "Source Two"] := by
  exact ⟨by decide, by decide⟩

theorem collect_sources_isolated_witness :
    process_source gpNone gpNone rules0 "p" "m" "" nowDec2024
        (.edinet ⟨"e1", "Edinet", "https://api", [], .ok []⟩) =
      ([], ⟨"Edinet", "edinet", false, "EDINET_API_KEY not set (skipped)"⟩) :=
  (collect_sources_isolated gpNone gpNone rules0 "p" "m" "" nowDec2024 []).2.2.2.2.2
    rfl ⟨"e1", "Edinet", "https://api", [], .ok []⟩

/-- Lookup in the dictionary built by zipping a header row with a data row,
as DictReader builds it: with duplicate fieldnames the later assignment
wins, and a missing key yields the default. -/
def dictGet (fieldnames row : List String) (key dflt : String) : String :=
  match ((fieldnames.zip row).reverse.find? (fun p => p.1 == key)) with
  | some p => p.2
  | none => dflt

/-- Cells of the csv row written for an item, in the order of the writer
(tags joined by spaces, importance stringified, the draft flag as the
Python boolean text). -/
def rowCells (it : Item) : List String :=
  [it.id, it.topic_pack, it.source, it.title, it.url, it.published_at,
    it.summary_short, String.intercalate " " it.tags, toString it.importance,
    it.impact, it.llm_mode, if it.llm_draft then "True" else "False",
    it.llm_confidence]

/-- Embedding of the log-reading block of main: DictReader takes the first
physical row of the file as its header row (the writer never writes a header
row), so each remaining row contributes its id-keyed lookup, and an absent
id column yields the empty string. -/
def read_existing_ids : List (List String) → List String
  | [] => []
  | hdr :: rest => rest.map (fun row => dictGet hdr row "id" "")

/-- Embedding of the log-append block of main: append, to the existing file
rows, the rows of the first 80 ranked items whose id is not among the ids
read from the file. -/
def write_log (file : List (List String)) (all_sorted : List Item) : List (List String) :=
  let existing_ids := read_existing_ids file
  file ++ ((all_sorted.take 80).filter (fun it => decide (it.id ∉ existing_ids))).map rowCells

/-- C7: the log file is append-only (every prior row survives as a prefix of
the written file), but the identity dedup across runs never takes effect:
the reader consumes the first data row as a column header and finds no id
column, so a second and a third run over the unchanged single item append
its row again, leaving the same identity several times in the log. -/
theorem write_log_duplicate_bug :
    (∀ (file : List (List String)) (batch : List Item),
      file <+: write_log file batch) ∧
    write_log (write_log [] [itemW1]) [itemW1] =
      [rowCells itemW1, rowCells itemW1] ∧
    write_log (write_log (write_log [] [itemW1]) [itemW1]) [itemW1] =
      [rowCells itemW1, rowCells itemW1, rowCells itemW1] := by
  refine ⟨?_, by decide, by decide⟩
  intro file batch
  exact List.prefix_append file _

theorem drop_entry_claim_witness :
    drop_entry [] [] "Title" "Summary" = false :=
  (drop_entry_claim [] [] "Title" "Summary").2

theorem sort_newest_claim_witness :
    sort_newest [itemA, itemB] = [itemB, itemA] :=
  (sort_newest_claim []).2.2.2.1

theorem parse_timestamp_fallback_raises_witness :
    parse_timestamp_fallback gpNone "2/30 10:00" nowDec2024 = .error "ValueError" :=
  parse_timestamp_fallback_raises gpNone nowDec2024

theorem write_log_duplicate_bug_witness :
    [rowCells itemW1] <+: write_log [rowCells itemW1] [itemW2] :=
  write_log_duplicate_bug.1 [rowCells itemW1] [itemW2]
